import Mathlib

/-!
Verification of the redditgrambot Telegram bot (redditgrambot.py) against its
natural-language specification.

The Python module is shallowly embedded: every external collaborator (the Reddit
search API, the hot-post listings, the video downloader, the Telegram transport)
is passed in as an explicit function argument (an oracle), and every effect the
handler performs is recorded as a value of the `Action` type.  Regular
expressions from the source are embedded as executable matchers over `List Char`
that mirror Python `re` search/findall semantics (leftmost match, ordered
alternation, greedy or lazy quantifiers as written in the pattern).
-/

set_option maxRecDepth 10000

/-- A search result item, as used by `search_post` (praw submission fields the
code reads: `ups`, `title`, `shortlink`, `subreddit`). -/
structure Submission where
  title : String
  ups : Int
  shortlink : String
  subreddit : String
deriving DecidableEq

/-- A hot-listing item, as used by `peek_subreddit` (fields read: `title`,
`shortlink`). -/
structure Post where
  title : String
  shortlink : String
deriving DecidableEq

/-- Effects the bot performs on the chat.  `replyVideo u` records that the
video content downloaded from `u` was uploaded as a video reply. -/
inductive BotAction where
  | replyText (s : String)
  | replyVideo (source : String)
deriving DecidableEq

/-- The apostrophe character, used in the peek header text. -/
def apostrophe : String := String.mk [Char.ofNat 39]

/-- Left brace character. -/
def lbrace : Char := Char.ofNat 123

/-- Right brace character. -/
def rbrace : Char := Char.ofNat 125

/-- `SUBREDDIT_URL` template from line 34 of the source. -/
def SUBREDDIT_URL (s : String) : String := "https://www.reddit.com/r/" ++ s

/-- `SEARCH_URL` template from line 33 of the source. -/
def SEARCH_URL (u : String) : String := "https://www.reddit.com/search?q=url:" ++ u

/-- The bracket characters removed from titles by `re.sub(r"[\[\](){}]", "", t)`. -/
def is_bracket_char (c : Char) : Bool :=
  decide (c = '[' ∨ c = ']' ∨ c = '(' ∨ c = ')' ∨ c = lbrace ∨ c = rbrace)

/-- Title with the bracket characters removed (the `re.sub` calls at lines 89
and 173 of the source). -/
def strip_title (t : String) : String :=
  String.mk (t.data.filter (fun c => !is_bracket_char c))

/-- `str.replace("mp4", "gifv")` from line 75: replace every (left-to-right,
non-overlapping) occurrence of `mp4` by `gifv`. -/
def replace_mp4 : List Char → List Char
  | 'm' :: 'p' :: '4' :: rest => 'g' :: 'i' :: 'f' :: 'v' :: replace_mp4 rest
  | c :: rest => c :: replace_mp4 rest
  | [] => []

/-- One formatted line of the `search_post` reply (line 90 of the source). -/
def entry_line (sub : Submission) : String :=
  toString sub.ups ++ "⇳ [" ++ strip_title sub.title ++ "](" ++ sub.shortlink
    ++ ") (on [/r/" ++ sub.subreddit ++ "](" ++ SUBREDDIT_URL sub.subreddit ++ "))\n"

/-- The header of the `search_post` reply (line 84 of the source). -/
def search_header (n : Nat) (url : String) : String :=
  "I found " ++ toString n ++ " " ++ (if 1 < n then "posts" else "post")
    ++ " with this [url](" ++ url ++ ")\n"

/-- The truncation footer of the `search_post` reply (lines 94-97). -/
def search_footer (url : String) : String :=
  "\nShowing at most the three most upvoted:\n"
    ++ "You can see all posts in this [link](" ++ SEARCH_URL url ++ ")"

/-- The per-submission lines of the reply: the loop at line 87 runs over
`submissions[:3]`. -/
def post_lines (subs : List Submission) : List String :=
  (subs.take 3).map entry_line

/-- The full reply string composed by `search_post` (lines 83-97). -/
def compose_reply (subs : List Submission) (url : String) : String :=
  ((post_lines subs).foldl (fun r l => r ++ l) (search_header subs.length url))
    ++ (if 3 < subs.length then search_footer url else "")

/-- Result-gathering phase of `search_post` (lines 67-82): the initial search,
and the mp4-to-gifv fallback search whose results are prepended. -/
def search_post_gather (search : String → List Submission) (url : String) :
    List Submission × String :=
  let submissions := search ("url:" ++ url)
  if submissions.length < 2 ∧ "mp4".data.isSuffixOf url.data = true then
    let url2 := String.mk (replace_mp4 url.data)
    (search ("url:" ++ url2) ++ submissions, url2)
  else (submissions, url)

/-- `search_post` (lines 65-100): returns the reply text sent to the chat, or
`none` when no reply is sent (`if len_sub:` guard at line 83). -/
def search_post (search : String → List Submission) (url : String) : Option String :=
  let g := search_post_gather search url
  if g.1.length ≠ 0 then some (compose_reply g.1 g.2) else none

/-- Title shown by `peek_subreddit` (lines 173-176): brackets stripped, then
truncated to 40 characters plus an ellipsis when longer than 40. -/
def trunc_title (t : String) : String :=
  let s := strip_title t
  if 40 < s.length then String.mk (s.data.take 40) ++ "..." else s

/-- The header of the peek reply (line 169). -/
def peek_header (subreddit : String) : String :=
  "Here" ++ apostrophe ++ "s a sneak peek of [/r/" ++ subreddit ++ "]("
    ++ SUBREDDIT_URL subreddit ++ "):\n"

/-- One line of the peek reply (line 177). -/
def peek_line (p : Post) : String :=
  "- [" ++ trunc_title p.title ++ "](" ++ p.shortlink ++ ")\n"

/-- The per-post lines of the peek reply; the loop at line 172 runs over the
listing returned by `hot(limit=5)`. -/
def peek_lines (posts : List Post) : List String := posts.map peek_line

/-- The full reply string composed by `peek_subreddit` (lines 167-181), given
the listing the API returned for `hot(limit=5)`. -/
def peek_subreddit (posts : List Post) (subreddit : String) : String :=
  (peek_lines posts).foldl (fun r l => r ++ l) (peek_header subreddit)

/-! ## Character classes -/

/-- The character class `[a-zA-Z0-9]`. -/
def is_alnum (c : Char) : Bool :=
  decide ((97 ≤ c.toNat ∧ c.toNat ≤ 122) ∨ (65 ≤ c.toNat ∧ c.toNat ≤ 90)
    ∨ (48 ≤ c.toNat ∧ c.toNat ≤ 57))

/-- The character class `[a-zA-Z0-9_-]` in the tail of `re_links`. -/
def is_name_char (c : Char) : Bool := is_alnum c || decide (c = '_' ∨ c = '-')

/-- The character class `[a-zA-Z0-9_]` (the `re_subreddit` capture group, and
the ASCII reading of `\w`). -/
def word_char (c : Char) : Bool := is_alnum c || decide (c = '_')

/-- Python `\s` whitespace class (ASCII part). -/
def is_space (c : Char) : Bool :=
  decide (c = ' ' ∨ c = '\t' ∨ c = '\n' ∨ c = '\x0d' ∨ c = '\x0b' ∨ c = '\x0c')

/-! ## A small backtracking-parser embedding of regular expressions

Each combinator maps an input to the list of possible remainders, ordered the
way a backtracking regex engine (Python `re`) would try them: alternatives
left to right, optional pieces with the consuming branch first, `+` longest
first.  The head of the list therefore corresponds to the extent Python's
engine picks, and full-match acceptance is `[]` being among the remainders. -/

/-- Literal: consume exactly `w`. -/
def pLit (w : List Char) (l : List Char) : List (List Char) :=
  if w.isPrefixOf l = true then [l.drop w.length] else []

/-- Concatenation. -/
def pSeq (p q : List Char → List (List Char)) (l : List Char) : List (List Char) :=
  (p l).flatMap q

/-- Alternation, left branch tried first. -/
def pAlt (p q : List Char → List (List Char)) (l : List Char) : List (List Char) :=
  p l ++ q l

/-- Greedy option `(...)?`: consuming branch first. -/
def pOpt (p : List Char → List (List Char)) (l : List Char) : List (List Char) :=
  p l ++ [l]

/-- Greedy `[class]+`: one or more class characters, longest first. -/
def pPlus (c : Char → Bool) : List Char → List (List Char)
  | [] => []
  | x :: xs => if c x = true then pPlus c xs ++ [xs] else []

/-- The extension alternation `(?:gifv|webm|mp4|png|jpg|gif|jpeg)`. -/
def ext_alt : List Char → List (List Char) :=
  pAlt (pLit "gifv".data) (pAlt (pLit "webm".data) (pAlt (pLit "mp4".data)
    (pAlt (pLit "png".data) (pAlt (pLit "jpg".data)
    (pAlt (pLit "gif".data) (pLit "jpeg".data))))))

/-- The `re_links` pattern (line 49 of the source), transcribed piece by piece:
`https?://(?:www\.)?(?:i\.)?(?:imgur|gfycat|redd|streamable)\.(?:com|it)/`
`(?:gallery/)?(?:a/[a-zA-Z0-9]+|[a-zA-Z0-9_-]+\.?(?:gifv|webm|mp4|png|jpg|gif|jpeg)?)`. -/
def re_links_results : List Char → List (List Char) :=
  pSeq (pLit "http".data)
 (pSeq (pOpt (pLit "s".data))
 (pSeq (pLit "://".data)
 (pSeq (pOpt (pLit "www.".data))
 (pSeq (pOpt (pLit "i.".data))
 (pSeq (pAlt (pLit "imgur".data) (pAlt (pLit "gfycat".data)
          (pAlt (pLit "redd".data) (pLit "streamable".data))))
 (pSeq (pLit ".".data)
 (pSeq (pAlt (pLit "com".data) (pLit "it".data))
 (pSeq (pLit "/".data)
 (pSeq (pOpt (pLit "gallery/".data))
 (pAlt (pSeq (pLit "a/".data) (pPlus is_alnum))
       (pSeq (pPlus is_name_char)
             (pSeq (pOpt (pLit ".".data)) (pOpt ext_alt)))))))))))))

/-- Whether `re_links` accepts the whole string (its language, full-match
semantics). -/
def re_links_match (l : List Char) : Bool := (re_links_results l).contains []

/-- The media-URL language the spec documents, read literally from the claim:
http or https scheme, optional `www.` and `i.` prefixes, one of the hosts
imgur, gfycat, redd.it or streamable (i.e. `imgur.com`, `gfycat.com`,
`redd.it`, `streamable.com`), optional `gallery/` or `a/` album path, and an
optional extension from the documented list. -/
def documented_shape_results : List Char → List (List Char) :=
  pSeq (pLit "http".data)
 (pSeq (pOpt (pLit "s".data))
 (pSeq (pLit "://".data)
 (pSeq (pOpt (pLit "www.".data))
 (pSeq (pOpt (pLit "i.".data))
 (pSeq (pAlt (pLit "imgur.com".data) (pAlt (pLit "gfycat.com".data)
          (pAlt (pLit "redd.it".data) (pLit "streamable.com".data))))
 (pSeq (pLit "/".data)
 (pSeq (pOpt (pLit "gallery/".data))
 (pAlt (pSeq (pLit "a/".data) (pPlus is_alnum))
       (pSeq (pPlus is_name_char)
             (pOpt (pSeq (pLit ".".data) ext_alt)))))))))))

/-- Acceptance by the documented shape, as the claim states it. -/
def documented_shape (l : List Char) : Bool := (documented_shape_results l).contains []

/-- The amended documented shape: the host is any of the four names imgur,
gfycat, redd, streamable followed by a dot and either of the suffixes com or
it (all eight combinations), and the trailing dot and the extension are each
independently optional. -/
def documented_shape_amended_results : List Char → List (List Char) :=
  pSeq (pLit "http".data)
 (pSeq (pOpt (pLit "s".data))
 (pSeq (pLit "://".data)
 (pSeq (pOpt (pLit "www.".data))
 (pSeq (pOpt (pLit "i.".data))
 (pSeq (pAlt (pLit "imgur".data) (pAlt (pLit "gfycat".data)
          (pAlt (pLit "redd".data) (pLit "streamable".data))))
 (pSeq (pLit ".".data)
 (pSeq (pAlt (pLit "com".data) (pLit "it".data))
 (pSeq (pLit "/".data)
 (pSeq (pOpt (pLit "gallery/".data))
 (pAlt (pSeq (pLit "a/".data) (pPlus is_alnum))
       (pSeq (pPlus is_name_char)
             (pSeq (pOpt (pLit ".".data)) (pOpt ext_alt)))))))))))))

/-- Acceptance by the amended documented shape. -/
def documented_shape_amended (l : List Char) : Bool :=
  (documented_shape_amended_results l).contains []

/-- `re.findall(re_links, text)[0]`: the leftmost match of `re_links` in the
text, with the extent the backtracking engine picks (head of the ordered
remainder list).  Group 1 of the pattern is the whole match. -/
def find_first_links : List Char → Option (List Char)
  | [] => none
  | l@(_ :: rest) =>
    match re_links_results l with
    | r :: _ => some (l.take (l.length - r.length))
    | [] => find_first_links rest

/-! ## The `re_subreddit` pattern (line 50): `(?:^|\W)(?:\/r\/([a-zA-Z0-9_]+))`

`re.findall(...)[0]` returns the first capture group of the leftmost match.
The scanner below walks the string keeping a flag that records whether a match
may start at the current position (start of string, or the previous character
was a non-word character, i.e. the consumed `^|\W` part). -/

/-- Scanner for `re_subreddit`.  At each position: if the boundary flag holds,
the text starts with `/r/` and a word character follows, the capture group is
the maximal word-character run after `/r/`; otherwise move one character on,
updating the boundary flag. -/
def subreddit_scan : Bool → List Char → Option (List Char)
  | _, [] => none
  | ok, c :: rest =>
    if ok = true ∧ ['/', 'r', '/'].isPrefixOf (c :: rest) = true
        ∧ ((c :: rest).drop 3).takeWhile word_char ≠ [] then
      some (((c :: rest).drop 3).takeWhile word_char)
    else subreddit_scan (!word_char c) rest

/-- The subreddit name `message_handler` extracts at lines 224-226:
`re.findall(re_subreddit, text)[0]`. -/
def subreddit_extract (s : List Char) : Option (List Char) := subreddit_scan true s

/-! ## The `v_reddit_links` pattern (line 51):
`(https?://(?:www\.)?(?:v\.)?(?:redd.it)/(?:.*?))(?:\s|$)` -/

/-- Consume literal `w` or fail. -/
def dropLit (w l : List Char) : Option (List Char) :=
  if w.isPrefixOf l = true then some (l.drop w.length) else none

/-- Consume optional literal `w` (deterministic: in every use below the
follow set of the option is disjoint from the first character of `w`,
so greedy consumption never needs backtracking). -/
def dropOpt (w l : List Char) : List Char :=
  if w.isPrefixOf l = true then l.drop w.length else l

/-- Match `v_reddit_links` at the current position; returns capture group 1,
the URL up to (excluding) the terminating whitespace or end of string (the
lazy `(?:.*?)` expands to the shortest run reaching `\s` or `$`; `.` does not
cross a newline, and a newline is itself `\s`). -/
def vreddit_hit (l : List Char) : Option (List Char) := do
  let r1 ← dropLit "http".data l
  let r2 := dropOpt "s".data r1
  let r3 ← dropLit "://".data r2
  let r4 := dropOpt "www.".data r3
  let r5 := dropOpt "v.".data r4
  let r6 ← dropLit "redd".data r5
  match r6 with
  | c :: r7 =>
    if c ≠ '\n' then
      (dropLit "it/".data r7).map
        (fun r8 => l.take (l.length - r8.length) ++ r8.takeWhile (fun c => !is_space c))
    else none
  | [] => none

/-- `re.search(v_reddit_links, text)`: leftmost match, capture group 1. -/
def find_vreddit : List Char → Option (List Char)
  | [] => none
  | l@(_ :: rest) =>
    match vreddit_hit l with
    | some g => some g
    | none => find_vreddit rest

/-! ## The `comments_id` pattern (line 52):
`(https://(?:www\.|old\.)?reddit.com/r/(?:.*?)/comments/(.*?)/.*)` -/

/-- After `reddit.com/r/` has been consumed: find the next `/comments/`
occurrence reachable by the lazy `(?:.*?)` (which cannot cross a newline),
then take group 2, the lazy shortest run up to a following `/`; if no `/`
follows before a newline or the end, backtrack to a later `/comments/`. -/
def comments_after : List Char → Option (List Char)
  | [] => none
  | c :: rest =>
    if c = '\n' then none
    else
      if "/comments/".data.isPrefixOf (c :: rest) = true then
        let after := (c :: rest).drop 10
        let id := after.takeWhile (fun x => !decide (x = '/' ∨ x = '\n'))
        match after.drop id.length with
        | '/' :: _ => some id
        | _ => comments_after rest
      else comments_after rest

/-- Match `comments_id` at the current position; returns capture group 2, the
post id between `/comments/` and the next `/`. -/
def comments_hit (l : List Char) : Option (List Char) := do
  let r1 ← dropLit "https://".data l
  let r2 := if "www.".data.isPrefixOf r1 = true then r1.drop 4
            else if "old.".data.isPrefixOf r1 = true then r1.drop 4 else r1
  let r3 ← dropLit "reddit".data r2
  match r3 with
  | c :: r4 =>
    if c ≠ '\n' then do
      let r5 ← dropLit "com/r/".data r4
      comments_after r5
    else none
  | [] => none

/-- `re.search(comments_id, text)`: leftmost match, capture group 2. -/
def find_comments_id : List Char → Option (List Char)
  | [] => none
  | l@(_ :: rest) =>
    match comments_hit l with
    | some g => some g
    | none => find_comments_id rest

/-! ## The praw submission lookup used by `get_vreddit_url` (lines 188-194) -/

/-- The fields of a praw submission that `get_vreddit_url` reads. -/
structure SubmissionInfo where
  crosspost_parent : Option String
  is_video : Bool
  url : String
deriving DecidableEq

/-- `submission.crosspost_parent.split("_")[1]` (line 192). -/
def crosspost_id (s : String) : String := (s.splitOn "_").getD 1 ""

/-- `get_vreddit_url` (lines 184-194), with the Reddit API abstracted as
`api : id ↦ SubmissionInfo`.  Python returns `None` implicitly when neither
regex matches or the post is not a video. -/
def get_vreddit_url (api : String → SubmissionInfo) (text : List Char) : Option String :=
  match find_vreddit text with
  | some g => some (String.mk g)
  | none =>
    match find_comments_id text with
    | some id =>
      let s0 := api (String.mk id)
      let s := match s0.crosspost_parent with
        | some cp => if cp ≠ "" then api (crosspost_id cp) else s0
        | none => s0
      if s.is_video = true then some s.url else none
    | none => none

/-- The temporary file name `"/tmp/%s%s.mp4" % (chat.id, message_id)` (line 198). -/
def tmp_filename (chatId msgId : Nat) : String :=
  "/tmp/" ++ toString chatId ++ toString msgId ++ ".mp4"

/-- `send_video` (lines 197-209), with the downloader abstracted as a success
oracle `dl`.  The filesystem is an association list of (path, content); the
download writes the video fetched from `url` into `fname`, `reply_video`
uploads that file's content, and `os.remove` deletes the file.  On a download
failure the handler replies with an error text and returns (line 203-205). -/
def send_video (dl : String → Bool) (url fname : String)
    (fs : List (String × String)) : List BotAction × List (String × String) :=
  if dl url = true then
    ([BotAction.replyVideo url], ((fname, url) :: fs).eraseP (fun e => decide (e.1 = fname)))
  else ([BotAction.replyText "Failed to download video."], fs)

/-- Lines 215-217 of `message_handler`: the v.redd.it branch, which fires
before (and regardless of) the other branches. -/
def vreddit_part (api : String → SubmissionInfo) (dl : String → Bool)
    (chatId msgId : Nat) (text : String) (fs : List (String × String)) :
    List BotAction × List (String × String) :=
  match get_vreddit_url api text.data with
  | some u => send_video dl u (tmp_filename chatId msgId) fs
  | none => ([], fs)

/-- Lines 219-222: the reply actions of the link-search branch. -/
def link_branch (search : String → List Submission) (m : List Char) : List BotAction :=
  match search_post search (String.mk m) with
  | some r => [BotAction.replyText r]
  | none => []

/-- `message_handler` (lines 212-227): the v.redd.it branch runs first; then
the `re_links` branch fires and returns; otherwise the `re_subreddit` branch
fires.  Returns the actions performed and the final filesystem. -/
def message_handler (api : String → SubmissionInfo) (dl : String → Bool)
    (search : String → List Submission) (hot : String → List Post)
    (chatId msgId : Nat) (text : String) (fs : List (String × String)) :
    List BotAction × List (String × String) :=
  let v := vreddit_part api dl chatId msgId text fs
  match find_first_links text.data with
  | some m => (v.1 ++ link_branch search m, v.2)
  | none =>
    match subreddit_extract text.data with
    | some w =>
      (v.1 ++ [BotAction.replyText (peek_subreddit (hot (String.mk w)) (String.mk w))], v.2)
    | none => (v.1, v.2)

/-! ## `random_post` (lines 103-150) -/

/-- Python exceptions that can escape the modelled fragment. -/
inductive PyError where
  | attributeError
  | indexError
deriving DecidableEq

/-- The fields of a praw submission that `random_post` reads. -/
structure RPost where
  title : String
  url : String
  selftext : String
  shortlink : String
deriving DecidableEq

/-- `random_post` (lines 103-150) for the command path (`more = None`), with
the two Reddit calls abstracted: `randomCall` is the result of
`reddit.subreddit(s).random()` (`Except.error ()` models the praw
`ClientException` of the known bug, `Except.ok none` a `None` post for an
invalid subreddit), and `hotList`/`choiceIdx` model the
`random.choice(hot(limit=25))` fallback.  When the post is `None` the code
calls `update.message.reply_test(...)` — a method that does not exist on a
telegram Message, so the call raises `AttributeError` and no reply is sent
(and even with the intended `reply_text` the code would fall through and
dereference `post.shortlink` on `None`). -/
def random_post (esc : String → String) (randomCall : Except Unit (Option RPost))
    (hotList : List RPost) (choiceIdx : Nat) (subreddit : String) :
    Except PyError (List BotAction) :=
  let postE : Except PyError (Option RPost) :=
    match randomCall with
    | .ok p => .ok p
    | .error _ =>
      match hotList with
      | [] => .error .indexError
      | h :: t => .ok (some ((h :: t).getD (choiceIdx % (h :: t).length) h))
  match postE with
  | .error e => .error e
  | .ok none => .error .attributeError
  | .ok (some p) =>
    .ok [BotAction.replyText
      ("*" ++ esc p.title ++ "*\n"
        ++ (if p.selftext = "" then esc p.url else esc p.selftext ++ "\n")
        ++ "\nRandom post from [/r/" ++ subreddit ++ "](" ++ SUBREDDIT_URL subreddit ++ ")")]

/-! ## Theorems -/

/-- C2, counterexample.  The claim says the link regex accepts exactly the
documented shapes; but the pattern pairs each host name with each suffix, so
it accepts `https://imgur.it/a`, which is no documented host, and it accepts a
trailing bare dot with no extension, as in `https://imgur.com/a.`. -/
theorem re_links_not_documented_shape :
    re_links_match "https://imgur.it/a".data = true
      ∧ documented_shape "https://imgur.it/a".data = false
      ∧ re_links_match "https://imgur.com/a.".data = true
      ∧ documented_shape "https://imgur.com/a.".data = false := by
  decide

/-- C2, amended.  The language of `re_links` is exactly the amended documented
shape: host = one of imgur/gfycat/redd/streamable times one of .com/.it, and
the trailing dot and the extension each independently optional. -/
theorem re_links_matches_amended_shape :
    ∀ l : List Char, re_links_match l = documented_shape_amended l :=
  fun _ => rfl

/-- C9.  When the gathered result set (including the mp4-to-gifv fallback) is
empty, `search_post` sends no reply at all. -/
theorem search_post_empty_no_reply :
    ∀ (search : String → List Submission) (url : String),
      (search_post_gather search url).1 = [] → search_post search url = none := by
  intro search url h
  simp only [search_post, h]
  simp

/-- C9, witness: a search oracle returning no submissions produces no reply. -/
theorem search_post_empty_no_reply_witness :
    search_post (fun _ => ([] : List Submission)) "http://example.com/a" = none :=
  search_post_empty_no_reply _ _ rfl

/-- Unfolding equation for `replace_mp4` when the input does not start with
`mp4`. -/
theorem replace_mp4_eq_other (c : Char) (r : List Char)
    (h : ¬ ('m' :: 'p' :: '4' :: [] : List Char).isPrefixOf (c :: r) = true) :
    replace_mp4 (c :: r) = c :: replace_mp4 r := by
  rw [replace_mp4.eq_def]
  split
  · rename_i heq
    rw [show c :: r = 'm' :: 'p' :: '4' :: _ from heq] at h
    simp [List.isPrefixOf] at h
  · rename_i hno heq
    injection heq with h1 h2
    subst h1
    subst h2
    rfl
  · simp_all

/-- The head of `replace_mp4 r`, if it is not a character of `gifv`, is the
head of `r`. -/
theorem replace_mp4_head (r : List Char) (c : Char) (hne : c ≠ 'g')
    (h : (replace_mp4 r).head? = some c) : r.head? = some c := by
  by_cases hp : ('m' :: 'p' :: '4' :: [] : List Char).isPrefixOf r = true
  · rw [List.isPrefixOf_iff_prefix] at hp
    obtain ⟨t, ht⟩ := hp
    subst ht
    simp only [replace_mp4] at h
    simp at h
    exact absurd h.symm hne
  · cases r with
    | nil => simp [replace_mp4] at h
    | cons x xs =>
      rw [replace_mp4_eq_other x xs hp] at h
      simpa using h

/-- `replace_mp4` leaves no occurrence of `mp4` behind (bounded-length
version for induction). -/
theorem replace_mp4_no_mp4_aux :
    ∀ (n : Nat) (l : List Char), l.length ≤ n →
      ¬ (('m' :: 'p' :: '4' :: [] : List Char) <:+: replace_mp4 l) := by
  intro n
  induction n with
  | zero =>
    intro l hlen hinf
    have hl : l = [] := by
      cases l with
      | nil => rfl
      | cons c r => simp at hlen
    subst hl
    simp [replace_mp4] at hinf
  | succ n ih =>
    intro l hlen hinf
    by_cases hp : ('m' :: 'p' :: '4' :: [] : List Char).isPrefixOf l = true
    · rw [List.isPrefixOf_iff_prefix] at hp
      obtain ⟨t, ht⟩ := hp
      subst ht
      simp only [replace_mp4] at hinf
      rw [List.infix_cons_iff] at hinf
      rcases hinf with hpre | hinf
      · simp [List.cons_prefix_cons] at hpre
      rw [List.infix_cons_iff] at hinf
      rcases hinf with hpre | hinf
      · simp [List.cons_prefix_cons] at hpre
      rw [List.infix_cons_iff] at hinf
      rcases hinf with hpre | hinf
      · simp [List.cons_prefix_cons] at hpre
      rw [List.infix_cons_iff] at hinf
      rcases hinf with hpre | hinf
      · simp [List.cons_prefix_cons] at hpre
      · exact ih t (by simp at hlen; omega) hinf
    · cases l with
      | nil => simp [replace_mp4] at hinf
      | cons c r =>
        rw [replace_mp4_eq_other c r hp] at hinf
        rw [List.infix_cons_iff] at hinf
        rcases hinf with hpre | hinf
        · rw [List.cons_prefix_cons] at hpre
          obtain ⟨hc, hpre⟩ := hpre
          have hhead : (replace_mp4 r).head? = some 'p' := by
            obtain ⟨t, ht⟩ := hpre
            rw [← ht]
            rfl
          have hr : r.head? = some 'p' := replace_mp4_head r 'p' (by decide) hhead
          obtain ⟨r2, hr2⟩ : ∃ r2, r = 'p' :: r2 := by
            cases r with
            | nil => simp at hr
            | cons x xs =>
              simp at hr
              exact ⟨xs, by rw [hr]⟩
          subst hr2
          have hstep : replace_mp4 ('p' :: r2) = 'p' :: replace_mp4 r2 :=
            replace_mp4_eq_other 'p' r2 (by simp [List.isPrefixOf])
          rw [hstep, List.cons_prefix_cons] at hpre
          obtain ⟨-, hpre⟩ := hpre
          have hhead2 : (replace_mp4 r2).head? = some '4' := by
            obtain ⟨t, ht⟩ := hpre
            rw [← ht]
            rfl
          have hr2h : r2.head? = some '4' := replace_mp4_head r2 '4' (by decide) hhead2
          obtain ⟨r3, hr3⟩ : ∃ r3, r2 = '4' :: r3 := by
            cases r2 with
            | nil => simp at hr2h
            | cons x xs =>
              simp at hr2h
              exact ⟨xs, by rw [hr2h]⟩
          subst hr3
          subst hc
          simp [List.isPrefixOf] at hp
        · exact ih r (by simp at hlen; omega) hinf

/-- C8.  When the initial search returns fewer than 2 submissions and the url
ends with `mp4`, `search_post` performs a second search with every occurrence
of `mp4` replaced by `gifv` (no `mp4` occurrence survives the replacement),
and prepends the second search's results to the first's. -/
theorem search_post_mp4_gifv_fallback :
    ∀ (search : String → List Submission) (url : String),
      "mp4".data.isSuffixOf url.data = true →
      (search ("url:" ++ url)).length < 2 →
      search_post_gather search url =
        (search ("url:" ++ String.mk (replace_mp4 url.data)) ++ search ("url:" ++ url),
          String.mk (replace_mp4 url.data))
      ∧ ¬ (('m' :: 'p' :: '4' :: [] : List Char) <:+:
            (String.mk (replace_mp4 url.data)).data) := by
  intro search url hsuf hlen
  constructor
  · simp only [search_post_gather]
    rw [if_pos ⟨hlen, hsuf⟩]
  · exact replace_mp4_no_mp4_aux url.data.length url.data (Nat.le_refl _)

/-- C8, witness: on `http://i.imgur.com/x.mp4` with an empty search oracle the
fallback fires and rewrites the url to `http://i.imgur.com/x.gifv`. -/
theorem search_post_mp4_gifv_fallback_witness :
    search_post_gather (fun _ => ([] : List Submission)) "http://i.imgur.com/x.mp4"
      = ([], "http://i.imgur.com/x.gifv") :=
  ((search_post_mp4_gifv_fallback (fun _ => []) "http://i.imgur.com/x.mp4"
      (by decide) (by decide)).1).trans rfl

/-- C10.  Under the API contract that `hot(limit=5)` returns at most 5 posts,
the peek reply lists at most 5 lines, one per returned post; each listed title
has the bracket characters stripped, and is truncated to its first 40
characters plus `...` exactly when the stripped title is longer than 40
characters. -/
theorem peek_subreddit_bounds :
    ∀ (posts : List Post), posts.length ≤ 5 →
      (peek_lines posts).length ≤ 5
      ∧ (∀ line ∈ peek_lines posts, ∃ p ∈ posts,
          line = "- [" ++ trunc_title p.title ++ "](" ++ p.shortlink ++ ")\n")
      ∧ (∀ p ∈ posts,
          (∀ c ∈ (strip_title p.title).data, is_bracket_char c = false)
          ∧ (40 < (strip_title p.title).length →
              trunc_title p.title = String.mk ((strip_title p.title).data.take 40) ++ "...")
          ∧ ((strip_title p.title).length ≤ 40 →
              trunc_title p.title = strip_title p.title)) := by
  intro posts hlen
  refine ⟨?_, ?_, ?_⟩
  · simpa [peek_lines] using hlen
  · intro line hline
    rw [peek_lines, List.mem_map] at hline
    obtain ⟨p, hp, rfl⟩ := hline
    exact ⟨p, hp, rfl⟩
  · intro p _
    refine ⟨?_, ?_, ?_⟩
    · intro c hc
      rw [strip_title] at hc
      simp only [List.mem_filter] at hc
      simpa using hc.2
    · intro hgt
      rw [trunc_title, if_pos hgt]
    · intro hle
      rw [trunc_title, if_neg (by omega)]

/-- C10, witness: a two-post listing, one long bracketed title and one short. -/
theorem peek_subreddit_bounds_witness :
    (peek_lines [⟨"a title [with] brackets that is quite long indeed yes", "s1"⟩,
                 ⟨"short", "s2"⟩]).length ≤ 5 :=
  (peek_subreddit_bounds _ (by decide)).1

/-- C4.  The claim says an unknown subreddit is caught and converted into a
user-facing text reply; in the code (line 118) the `None`-post branch calls
`update.message.reply_test(...)`, a method that does not exist, so the
handler raises `AttributeError` instead of replying (and lacking a `return`,
it would dereference the `None` post right after in any case).  Evaluating the
model at the failing input: a `random()` call that returns no post. -/
theorem random_post_none_raises :
    random_post (fun s => s) (Except.ok none) [] 0 "nonexistent_subreddit"
      = Except.error PyError.attributeError := rfl

/-- The characters of an appended string. -/
theorem string_data_append (s t : String) : (s ++ t).data = s.data ++ t.data := by
  cases s
  cases t
  rfl

/-- Left-folding `++` over strings that all end in a newline, starting from a
string ending in a newline, ends in a newline. -/
theorem foldl_append_getLast (ls : List String) :
    ∀ r : String, (∀ l ∈ ls, l.data.getLast? = some '\n') →
      r.data.getLast? = some '\n' →
      (ls.foldl (fun a b => a ++ b) r).data.getLast? = some '\n' := by
  induction ls with
  | nil => intro r _ hr; exact hr
  | cons l ls ih =>
    intro r hls hr
    simp only [List.foldl_cons]
    refine ih _ (fun x hx => hls x (List.mem_cons_of_mem _ hx)) ?_
    rw [string_data_append, List.getLast?_append, hls l (List.mem_cons_self _ _)]
    rfl

/-- Every submission line of the search reply ends in a newline. -/
theorem entry_line_getLast (sub : Submission) :
    (entry_line sub).data.getLast? = some '\n' := by
  rw [entry_line, string_data_append, List.getLast?_append]
  rfl

/-- The search reply header ends in a newline. -/
theorem search_header_getLast (n : Nat) (url : String) :
    (search_header n url).data.getLast? = some '\n' := by
  rw [search_header, string_data_append, List.getLast?_append]
  rfl

/-- The truncation footer ends in a closing parenthesis. -/
theorem search_footer_getLast (url : String) :
    (search_footer url).data.getLast? = some ')' := by
  rw [search_footer, string_data_append, List.getLast?_append]
  rfl

/-- Without the footer (at most three results), the composed reply ends in a
newline. -/
theorem compose_reply_getLast (subs : List Submission) (url : String)
    (h : ¬ 3 < subs.length) :
    (compose_reply subs url).data.getLast? = some '\n' := by
  rw [compose_reply, if_neg h, string_data_append, List.getLast?_append]
  have : (("" : String).data.getLast?) = none := rfl
  rw [this]
  simp only [Option.none_or]
  refine foldl_append_getLast _ _ ?_ (search_header_getLast _ _)
  intro l hl
  rw [post_lines, List.mem_map] at hl
  obtain ⟨s, -, rfl⟩ := hl
  exact entry_line_getLast s

/-- C1.  The composed search reply lists at most the first three submissions
(one `entry_line` per element of `submissions[:3]`), and the truncation footer
is part of the reply exactly when more than 3 submissions were found. -/
theorem search_reply_truncation :
    ∀ (subs : List Submission) (url : String),
      (post_lines subs).length ≤ 3
      ∧ (∀ line ∈ post_lines subs, ∃ sub ∈ subs.take 3, line = entry_line sub)
      ∧ ((search_footer url).data <:+ (compose_reply subs url).data
          ↔ 3 < subs.length) := by
  intro subs url
  refine ⟨?_, ?_, ?_, ?_⟩
  · simp [post_lines]
  · intro line hl
    rw [post_lines, List.mem_map] at hl
    obtain ⟨s, hs, rfl⟩ := hl
    exact ⟨s, hs, rfl⟩
  · intro hsuf
    by_contra hn
    have hlast := compose_reply_getLast subs url hn
    obtain ⟨t, ht⟩ := hsuf
    rw [← ht, List.getLast?_append, search_footer_getLast url] at hlast
    simp at hlast
  · intro h
    rw [compose_reply, if_pos h, string_data_append]
    exact List.suffix_append _ _

/-- C1, witness: with four identical submissions the footer is a suffix of the
reply. -/
theorem search_reply_truncation_witness :
    (search_footer "u").data <:+
      (compose_reply [⟨"t", 1, "s", "a"⟩, ⟨"t", 1, "s", "a"⟩,
                      ⟨"t", 1, "s", "a"⟩, ⟨"t", 1, "s", "a"⟩] "u").data :=
  ((search_reply_truncation _ "u").2.2).mpr (by decide)

/-- Boundary consumed by `(?:^|\W)`: the mention is at the start of the
string, or the character right before `/r/` is not a word character. -/
def boundary_ok (pre : List Char) : Prop :=
  ∀ c, pre.getLast? = some c → word_char c = false

/-- The string contains `/r/<name>` at a position `re_subreddit` can match:
`name` a nonempty word-character run preceded by start-of-string or a
non-word character. -/
def has_mention (s : List Char) : Prop :=
  ∃ pre name rest, s = pre ++ '/' :: 'r' :: '/' :: (name ++ rest)
    ∧ name ≠ [] ∧ name.all word_char = true ∧ boundary_ok pre

/-- Soundness of the `re_subreddit` scanner: an extracted name is a nonempty
maximal word-character run following a boundary-preceded `/r/`. -/
theorem subreddit_scan_sound :
    ∀ (s : List Char) (ok : Bool) (w : List Char), subreddit_scan ok s = some w →
      w ≠ [] ∧ w.all word_char = true
      ∧ ∃ pre rest, s = pre ++ '/' :: 'r' :: '/' :: (w ++ rest)
          ∧ (pre = [] → ok = true) ∧ boundary_ok pre
          ∧ (∀ c, rest.head? = some c → word_char c = false) := by
  intro s
  induction s with
  | nil => intro ok w h; simp [subreddit_scan] at h
  | cons c rest ih =>
    intro ok w h
    rw [subreddit_scan] at h
    split at h
    · rename_i hcond
      obtain ⟨hok, hpre, hne⟩ := hcond
      injection h with h
      subst h
      rw [List.isPrefixOf_iff_prefix] at hpre
      obtain ⟨t, ht⟩ := hpre
      have hdrop : ((c :: rest).drop 3) = t := by rw [← ht]; rfl
      rw [hdrop] at hne ⊢
      refine ⟨hne, List.all_takeWhile, [], t.dropWhile word_char, ?_, fun _ => hok, ?_, ?_⟩
      · rw [← ht]
        simp [List.takeWhile_append_dropWhile]
      · intro d hd
        simp at hd
      · intro d hd
        have hh := List.head?_dropWhile_not word_char t
        rw [hd] at hh
        exact hh
    · obtain ⟨hne, hall, pre, rest', heq, hpre_ok, hbound, hrest⟩ := ih (!word_char c) w h
      refine ⟨hne, hall, c :: pre, rest', by rw [heq]; rfl, ?_, ?_, hrest⟩
      · intro hcontra
        cases hcontra
      · intro d hd
        cases pre with
        | nil =>
          simp only [List.getLast?_singleton] at hd
          injection hd with hd
          subst hd
          have := hpre_ok rfl
          simpa using this
        | cons x xs =>
          rw [List.getLast?_cons_cons] at hd
          exact hbound d hd

/-- Completeness of the `re_subreddit` scanner: whenever a boundary-preceded
mention exists, the scanner extracts something. -/
theorem subreddit_scan_complete :
    ∀ (s : List Char) (ok : Bool),
      (∃ pre name rest, s = pre ++ '/' :: 'r' :: '/' :: (name ++ rest)
        ∧ name ≠ [] ∧ name.all word_char = true
        ∧ (pre = [] → ok = true) ∧ boundary_ok pre) →
      (subreddit_scan ok s).isSome = true := by
  intro s
  induction s with
  | nil =>
    rintro ok ⟨pre, name, rest, heq, -, -, -, -⟩
    exact absurd heq (by simp)
  | cons c rest ih =>
    rintro ok ⟨pre, name, rest', heq, hne, hall, hok, hbound⟩
    cases pre with
    | nil =>
      simp only [List.nil_append] at heq
      obtain ⟨n, ns, rfl⟩ : ∃ n ns, name = n :: ns := by
        cases name with
        | nil => exact absurd rfl hne
        | cons n ns => exact ⟨n, ns, rfl⟩
      injection heq with h1 h2
      subst h1
      subst h2
      have hword : word_char n = true := by
        simp [List.all_cons] at hall
        exact hall.1
      rw [subreddit_scan]
      rw [if_pos ?_]
      · simp
      refine ⟨hok rfl, by simp [List.isPrefixOf], ?_⟩
      show (((n :: ns) ++ rest').takeWhile word_char) ≠ []
      rw [List.cons_append, List.takeWhile_cons_of_pos hword]
      simp
    | cons p pre' =>
      injection heq with h1 h2
      subst h1
      rw [subreddit_scan]
      split
      · simp
      · apply ih
        refine ⟨pre', name, rest', h2, hne, hall, ?_, ?_⟩
        · intro hp'
          subst hp'
          have := hbound c (by simp)
          simp [this]
        · intro d hd
          refine hbound d ?_
          cases pre' with
          | nil => simp at hd
          | cons x xs => rw [List.getLast?_cons_cons]; exact hd

/-- C3, counterexample.  `a/r/pics` contains a mention of the form
`/r/<name>`, but the detector extracts nothing, because the pattern demands
start-of-string or a non-word character before `/r/` and `a` is a word
character. -/
theorem re_subreddit_missed_mention :
    subreddit_extract "a/r/pics".data = none
    ∧ "a/r/pics".data = ['a'] ++ '/' :: 'r' :: '/' :: ("pics".data ++ [])
    ∧ "pics".data ≠ [] ∧ "pics".data.all word_char = true := by
  decide

/-- C3, amended.  For every input string containing a subreddit mention
`/r/<name>` that is at the start of the string or preceded by a non-word
character, the detector extracts a name, and what it extracts is exactly the
maximal run of word characters following such a boundary-preceded `/r/`. -/
theorem subreddit_extract_amended :
    ∀ s : List Char,
      has_mention s ↔
        ∃ w, subreddit_extract s = some w ∧ w ≠ [] ∧ w.all word_char = true
          ∧ ∃ pre rest, s = pre ++ '/' :: 'r' :: '/' :: (w ++ rest)
            ∧ boundary_ok pre
            ∧ (∀ c, rest.head? = some c → word_char c = false) := by
  intro s
  constructor
  · intro hm
    obtain ⟨pre, name, rest, heq, hne, hall, hb⟩ := hm
    have hsome := subreddit_scan_complete s true
      ⟨pre, name, rest, heq, hne, hall, fun _ => rfl, hb⟩
    obtain ⟨w, hw⟩ := Option.isSome_iff_exists.mp hsome
    obtain ⟨hne', hall', pre', rest', heq', -, hb', hrest'⟩ :=
      subreddit_scan_sound s true w hw
    exact ⟨w, hw, hne', hall', pre', rest', heq', hb', hrest'⟩
  · rintro ⟨w, -, hne, hall, pre, rest, heq, hb, -⟩
    exact ⟨pre, w, rest, heq, hne, hall, hb⟩

/-- C3, witness: on `" /r/pics"` (mention preceded by a space) the detector
extracts a maximal word run after the boundary-preceded `/r/`. -/
theorem subreddit_extract_amended_witness :
    ∃ w, subreddit_extract " /r/pics".data = some w ∧ w ≠ []
      ∧ w.all word_char = true
      ∧ ∃ pre rest, " /r/pics".data = pre ++ '/' :: 'r' :: '/' :: (w ++ rest)
        ∧ boundary_ok pre
        ∧ (∀ c, rest.head? = some c → word_char c = false) :=
  (subreddit_extract_amended _).mp
    ⟨[' '], "pics".data, [], by decide, by decide, by decide, by
      intro c hc
      rw [show ([' '] : List Char).getLast? = some ' ' from rfl] at hc
      injection hc with hc
      subst hc
      decide⟩

/-- A Reddit-submission oracle mapping every id to a non-video post. -/
def api0 : String → SubmissionInfo := fun _ => ⟨none, false, ""⟩

/-- A Reddit-submission oracle mapping every id to a video post. -/
def api_vid : String → SubmissionInfo := fun _ => ⟨none, true, "https://v.redd.it/xyz"⟩

/-- A download oracle that always succeeds. -/
def dl1 : String → Bool := fun _ => true

/-- A search oracle returning no submissions. -/
def search0 : String → List Submission := fun _ => []

/-- A search oracle returning one submission. -/
def search1 : String → List Submission := fun _ => [⟨"t", 3, "https://redd.it/sl1", "aa"⟩]

/-- A hot-listing oracle returning no posts. -/
def hot0 : String → List Post := fun _ => []

/-- `send_video` leaves the filesystem as it found it: the downloaded
temporary file is removed before returning, and on a failed download nothing
is written. -/
theorem send_video_fs (dl : String → Bool) (url fname : String)
    (fs : List (String × String)) : (send_video dl url fname fs).2 = fs := by
  rw [send_video]
  split
  · simp [List.eraseP_cons_of_pos]
  · rfl

/-- The v.redd.it branch leaves the filesystem unchanged. -/
theorem vreddit_part_fs (api : String → SubmissionInfo) (dl : String → Bool)
    (cid mid : Nat) (text : String) (fs : List (String × String)) :
    (vreddit_part api dl cid mid text fs).2 = fs := by
  rw [vreddit_part]
  cases get_vreddit_url api text.data with
  | none => rfl
  | some u => exact send_video_fs dl u _ fs

/-- C7.  Handling a message is stateless: whatever the oracles and the
message, the handler returns with the filesystem exactly as it found it (the
temporary video file is removed before the handler returns), and the model
threads no other mutable state at all. -/
theorem message_handler_stateless :
    ∀ (api : String → SubmissionInfo) (dl : String → Bool)
      (search : String → List Submission) (hot : String → List Post)
      (cid mid : Nat) (text : String) (fs : List (String × String)),
      (message_handler api dl search hot cid mid text fs).2 = fs := by
  intro api dl search hot cid mid text fs
  have hv := vreddit_part_fs api dl cid mid text fs
  simp only [message_handler]
  cases hf : find_first_links text.data with
  | some m => simpa using hv
  | none =>
    cases hs : subreddit_extract text.data with
    | some w => simpa using hv
    | none => simpa using hv

/-- C5, amended.  Whenever the video-link detector yields a URL (the matched
URL for a `v_reddit_links` match, or the video URL of an https `reddit.com`
comments link to a video post) and the download succeeds, the handler uploads
the downloaded video into the chat as a video reply. -/
theorem message_handler_uploads_video :
    ∀ (api : String → SubmissionInfo) (dl : String → Bool)
      (search : String → List Submission) (hot : String → List Post)
      (cid mid : Nat) (text : String) (fs : List (String × String)) (u : String),
      get_vreddit_url api text.data = some u → dl u = true →
      BotAction.replyVideo u ∈ (message_handler api dl search hot cid mid text fs).1 := by
  intro api dl search hot cid mid text fs u hget hdl
  have hv : (vreddit_part api dl cid mid text fs).1 = [BotAction.replyVideo u] := by
    simp only [vreddit_part, hget]
    rw [send_video, if_pos hdl]
  simp only [message_handler]
  cases hf : find_first_links text.data with
  | some m => simp [hv]
  | none =>
    cases hs : subreddit_extract text.data with
    | some w => simp [hv]
    | none => simp [hv]

/-- C5, witness: a message that is a v.redd.it link, with an always-succeeding
downloader, gets a video reply of that link's content. -/
theorem message_handler_uploads_video_witness :
    BotAction.replyVideo "https://v.redd.it/abc"
      ∈ (message_handler api0 dl1 search0 hot0 1 2 "https://v.redd.it/abc" []).1 :=
  message_handler_uploads_video api0 dl1 search0 hot0 1 2 _ [] _ rfl rfl

/-- C5, counterexample.  The message is a `reddit.com` comments link to a
video post (per the oracle), but with the `http` scheme; `comments_id`
requires `https`, so the detector returns nothing and the handler performs no
action at all — no video is downloaded or re-uploaded. -/
theorem comments_link_http_not_detected :
    (message_handler api_vid dl1 search0 hot0 1 2
        "http://reddit.com/r/aa/comments/abc/t" []).1 = []
    ∧ "http://reddit.com/r/aa/comments/abc/t"
        = "http://" ++ "reddit.com/r/" ++ "aa" ++ "/comments/" ++ "abc" ++ "/t"
    ∧ (api_vid "abc").is_video = true := by
  refine ⟨rfl, rfl, rfl⟩

/-- C6, counterexample.  On a message matching both the link pattern and the
subreddit pattern, only the link branch fires: the peek reply for the
mentioned subreddit is not among the performed actions, so the branches are
not independent. -/
theorem link_branch_preempts_peek :
    (find_first_links "https://imgur.com/a /r/pics".data).isSome = true
    ∧ subreddit_extract "https://imgur.com/a /r/pics".data = some "pics".data
    ∧ BotAction.replyText (peek_subreddit (hot0 "pics") "pics")
        ∉ (message_handler api0 dl1 search1 hot0 1 2 "https://imgur.com/a /r/pics" []).1 := by
  refine ⟨rfl, rfl, ?_⟩
  decide

/-- C6, amended.  The v.redd.it branch is independent (its actions are always
performed, first); the link-search and subreddit-peek branches are mutually
exclusive: when the link pattern matches, the handler replies with the link
search and the subreddit branch is skipped, and the subreddit branch fires
only when the link pattern does not match. -/
theorem message_handler_branches :
    ∀ (api : String → SubmissionInfo) (dl : String → Bool)
      (search : String → List Submission) (hot : String → List Post)
      (cid mid : Nat) (text : String) (fs : List (String × String)),
      ((vreddit_part api dl cid mid text fs).1
          <+: (message_handler api dl search hot cid mid text fs).1)
      ∧ (∀ m, find_first_links text.data = some m →
          (message_handler api dl search hot cid mid text fs).1
            = (vreddit_part api dl cid mid text fs).1 ++ link_branch search m)
      ∧ (find_first_links text.data = none → ∀ w, subreddit_extract text.data = some w →
          (message_handler api dl search hot cid mid text fs).1
            = (vreddit_part api dl cid mid text fs).1
              ++ [BotAction.replyText (peek_subreddit (hot (String.mk w)) (String.mk w))]) := by
  intro api dl search hot cid mid text fs
  refine ⟨?_, ?_, ?_⟩
  · simp only [message_handler]
    cases hf : find_first_links text.data with
    | some m => exact ⟨_, rfl⟩
    | none =>
      cases hs : subreddit_extract text.data with
      | some w => exact ⟨_, rfl⟩
      | none => exact ⟨[], List.append_nil _⟩
  · intro m hm
    simp only [message_handler, hm]
  · intro hf w hw
    simp only [message_handler, hf, hw]

/-- C6, witness: on a message with only a subreddit mention, the handler's
actions are exactly the peek reply. -/
theorem message_handler_branches_witness :
    (message_handler api0 dl1 search0 hot0 1 2 " /r/pics" []).1
      = [BotAction.replyText (peek_subreddit (hot0 "pics") "pics")] := by
  have h := (message_handler_branches api0 dl1 search0 hot0 1 2 " /r/pics" []).2.2
    rfl "pics".data rfl
  exact h
